import Mathlib

/-!
A shallow embedding, in Lean 4, of the request-translation core of an
S3-compatible HTTP gateway (files `api/handler/put.go` and `api/user-auth.go`),
together with theorems settling the specification claims about it.

Go strings are embedded as `List Char`; Go maps (`map[string]string`,
`http.Header` restricted to first values) as association lists; Go's
`(T, error)` returns as `Except`; out-of-fragment collaborators (the object
layer, the credential center, helpers defined in files outside the fragment)
as oracle records whose fields hold the results those calls return.
-/

deriving instance DecidableEq for Except

namespace S3GW

/-- Go strings, embedded as lists of characters. -/
abbrev Str := List Char

/-- Shorthand turning a Lean string literal into the embedded string type. -/
def strLit (s : String) : Str := s.toList

/-! ## Go string primitives used by `put.go` (ASCII fragment) -/

/-- Go `strings.ToLower`, restricted to the ASCII range the gateway feeds it. -/
def toLowerChar (c : Char) : Char :=
  if 'A' ≤ c ∧ c ≤ 'Z' then Char.ofNat (c.toNat + 32) else c

/-- Go `strings.ToUpper`, restricted to the ASCII range (used to state claim C1). -/
def toUpperChar (c : Char) : Char :=
  if 'a' ≤ c ∧ c ≤ 'z' then Char.ofNat (c.toNat - 32) else c

/-- Go `strings.ToLower` on a whole string. -/
def goToLower (s : Str) : Str := s.map toLowerChar

/-- Go `strings.ToUpper` on a whole string. -/
def goToUpper (s : Str) : Str := s.map toUpperChar

/-- Go `strings.Trim(s, cutset)`: removes all leading and trailing characters
that occur in `cutset` (a character set, not a prefix). -/
def goTrim (cutset : Str) (s : Str) : Str :=
  (((s.dropWhile (fun c => cutset.contains c)).reverse.dropWhile
      (fun c => cutset.contains c))).reverse

/-- Value of one hexadecimal digit, as accepted by `strconv.ParseUint` with
base 16 (`0-9`, `a-f`, `A-F`). -/
def hexDigitVal (c : Char) : Option Nat :=
  if '0' ≤ c ∧ c ≤ '9' then some (c.toNat - '0'.toNat)
  else if 'a' ≤ c ∧ c ≤ 'f' then some (c.toNat - 'a'.toNat + 10)
  else if 'A' ≤ c ∧ c ≤ 'F' then some (c.toNat - 'A'.toNat + 10)
  else none

/-- One step of `strconv.ParseUint(s, 16, 32)`: accumulate a digit, failing on
a non-digit or on overflow past 32 bits (Go reports `ErrRange`, which the
caller treats as failure). -/
def hexStep (acc : Option Nat) (c : Char) : Option Nat :=
  match acc with
  | none => none
  | some n =>
      match hexDigitVal c with
      | none => none
      | some d => if n * 16 + d < 2 ^ 32 then some (n * 16 + d) else none

/-- Go `strconv.ParseUint(s, 16, 32)`: `none` models a parse error (empty input,
non-hex character, or a value that does not fit in 32 bits). -/
def parseUintHex32 (s : Str) : Option Nat :=
  if s.isEmpty then none else s.foldl hexStep (some 0)

/-! ## Basic-ACL parsing (`api/handler/put.go`, `parseBasicACL`) -/

/-- Keyword of the canned private ACL (`basicACLPrivate`). -/
def basicACLPrivateK : Str := strLit "private"

/-- Keyword of the canned read-only ACL (`basicACLReadOnly`). -/
def basicACLReadOnlyK : Str := strLit "public-read"

/-- Keyword of the canned public ACL (`basicACLPublic`). -/
def basicACLPublicK : Str := strLit "public-read-write"

/-- Default placement policy string (`defaultPolicy`). -/
def defaultPolicyK : Str := strLit "REP 3"

/-- The local constant `publicBasicRule` of `put.go`. -/
def publicBasicRule : Nat := 0x0FFFFFFF

namespace acl

/-- Modelled from the spec: the external `acl` package's public basic rule
constant; §9(b) of the spec fixes its value at `0x0FFFFFFF`
(*public-read-write*). -/
def PublicBasicRule : Nat := 0x0FFFFFFF

/-- Modelled from the spec: the external `acl` package's private basic rule
constant. The spec names the constant without fixing its numeric value; the
value below only needs to be a fixed 32-bit mask distinct from the others. -/
def PrivateBasicRule : Nat := 0x1C8C8CCC

/-- Modelled from the spec: the external `acl` package's read-only basic rule
constant; as for `PrivateBasicRule`, only its fixedness matters here. -/
def ReadOnlyBasicRule : Nat := 0x1FBF8CFF

end acl

/-- The cutset `"0x"` that `parseBasicACL` trims with. -/
def cutset0x : Str := ['0', 'x']

/-- The normalisation `strings.Trim(strings.ToLower(s), "0x")` applied by the
default branch of `parseBasicACL`. -/
def aclNorm (s : Str) : Str := goTrim cutset0x (goToLower s)

/-- The error-message text of `parseBasicACL`. -/
def cantParseACLMsg : Str := strLit "can't parse basic ACL: "

/-- Function `parseBasicACL` (`api/handler/put.go:157-175`): canned keywords map to the
fixed `acl` constants; anything else is lower-cased, trimmed of leading and
trailing `0`/`x` characters, and parsed as 32-bit unsigned hex; parse failure
yields `"can't parse basic ACL: <value>"` where `<value>` is the normalised
string (Go re-assigns `basicACL` before formatting the error). -/
def parseBasicACL (basicACL : Str) : Except Str Nat :=
  if basicACL == basicACLPublicK then .ok acl.PublicBasicRule
  else if basicACL == basicACLPrivateK then .ok acl.PrivateBasicRule
  else if basicACL == basicACLReadOnlyK then .ok acl.ReadOnlyBasicRule
  else
    match parseUintHex32 (aclNorm basicACL) with
    | some value => .ok value
    | none => .error (cantParseACLMsg ++ aclNorm basicACL)

/-- The 22 characters admissible in a hexadecimal string. -/
def hexChars : Str := strLit "0123456789abcdefABCDEF"

/-- A 32-bit hexadecimal string: non-empty, at most 8 digits, hex digits only. -/
def isHex32 (s : Str) : Bool :=
  !s.isEmpty && decide (s.length ≤ 8) && s.all (fun c => decide (c ∈ hexChars))

/-! ### Lemmas about ACL normalisation (towards claim C1) -/

/-- Case-mapping a hex digit up and then down is the same as mapping it down. -/
theorem lower_upper_hexChar (c : Char) (hc : c ∈ hexChars) :
    toLowerChar (toUpperChar c) = toLowerChar c :=
  (by decide : ∀ c ∈ hexChars, toLowerChar (toUpperChar c) = toLowerChar c) c hc

/-- Upper-casing a hex digit never produces the letter `p` (so an upper-cased
hex string is never a canned ACL keyword, which all contain `p`). -/
theorem upper_hexChar_ne_p (c : Char) (hc : c ∈ hexChars) : toUpperChar c ≠ 'p' :=
  (by decide : ∀ c ∈ hexChars, toUpperChar c ≠ 'p') c hc

/-- A hex digit is never the letter `p`. -/
theorem hexChar_ne_p (c : Char) (hc : c ∈ hexChars) : c ≠ 'p' :=
  (by decide : ∀ c ∈ hexChars, c ≠ 'p') c hc

/-- Dropping a character of the cutset in front of a string does not change
the result of `strings.Trim`. -/
theorem goTrim_cons_cut (c : Char) (hc : c ∈ cutset0x) (l : Str) :
    goTrim cutset0x (c :: l) = goTrim cutset0x l := by
  simp [goTrim, List.dropWhile_cons, hc]

/-- Prepending `"0x"` does not change the normalised ACL string. -/
theorem aclNorm_prepend0x (h : Str) : aclNorm (strLit "0x" ++ h) = aclNorm h := by
  show aclNorm ('0' :: 'x' :: h) = aclNorm h
  unfold aclNorm goToLower
  simp only [List.map_cons]
  rw [show toLowerChar '0' = '0' from by decide, show toLowerChar 'x' = 'x' from by decide]
  rw [goTrim_cons_cut '0' (by decide), goTrim_cons_cut 'x' (by decide)]

/-- Upper-casing a hex string does not change the normalised ACL string. -/
theorem aclNorm_upper (h : Str) (hh : ∀ c ∈ h, c ∈ hexChars) :
    aclNorm (goToUpper h) = aclNorm h := by
  unfold aclNorm goToLower goToUpper
  rw [List.map_map]
  congr 1
  exact List.map_congr_left fun c hc => lower_upper_hexChar c (hh c hc)

/-- A string of hex digits is not a canned ACL keyword. -/
theorem hex_ne_canned (h : Str) (hh : ∀ c ∈ h, c ∈ hexChars) :
    (h == basicACLPublicK) = false ∧ (h == basicACLPrivateK) = false
      ∧ (h == basicACLReadOnlyK) = false := by
  refine ⟨?_, ?_, ?_⟩ <;>
    · rw [beq_eq_false_iff_ne]
      intro he
      exact hexChar_ne_p 'p' (hh 'p' (by rw [he]; decide)) rfl

/-- The string `"0x"` followed by anything is not a canned ACL keyword. -/
theorem prepend0x_ne_canned (h : Str) :
    ((strLit "0x" ++ h) == basicACLPublicK) = false
      ∧ ((strLit "0x" ++ h) == basicACLPrivateK) = false
      ∧ ((strLit "0x" ++ h) == basicACLReadOnlyK) = false := by
  refine ⟨?_, ?_, ?_⟩ <;>
    · rw [beq_eq_false_iff_ne]
      rw [show strLit "0x" ++ h = '0' :: 'x' :: h from rfl]
      intro he
      injection he with h1 _
      exact absurd h1 (by decide)

/-- The upper-casing of a hex string is not a canned ACL keyword. -/
theorem upper_hex_ne_canned (h : Str) (hh : ∀ c ∈ h, c ∈ hexChars) :
    (goToUpper h == basicACLPublicK) = false
      ∧ (goToUpper h == basicACLPrivateK) = false
      ∧ (goToUpper h == basicACLReadOnlyK) = false := by
  refine ⟨?_, ?_, ?_⟩ <;>
    · rw [beq_eq_false_iff_ne]
      intro he
      have hp : 'p' ∈ goToUpper h := by rw [he]; decide
      simp only [goToUpper, List.mem_map] at hp
      obtain ⟨c, hc, hup⟩ := hp
      exact upper_hexChar_ne_p c (hh c hc) hup

/-- On a non-canned input, `parseBasicACL` takes the normalise-and-hex-parse
branch. -/
theorem parseBasicACL_default (s : Str) (h1 : (s == basicACLPublicK) = false)
    (h2 : (s == basicACLPrivateK) = false) (h3 : (s == basicACLReadOnlyK) = false) :
    parseBasicACL s =
      match parseUintHex32 (aclNorm s) with
      | some value => .ok value
      | none => .error (cantParseACLMsg ++ aclNorm s) := by
  simp [parseBasicACL, h1, h2, h3]

/-- Claim **C1**. Each canned token maps to its fixed `acl` constant; for every
32-bit hex string `h`, `parseBasicACL h = parseBasicACL ("0x" ++ h)
= parseBasicACL (upper h)` (results, including error messages, coincide);
and any value whose normalised form fails hex parsing yields the error
`"can't parse basic ACL: <value>"` with the normalised value. -/
theorem c1_parseBasicACL_spec :
    (parseBasicACL basicACLPrivateK = .ok acl.PrivateBasicRule
      ∧ parseBasicACL basicACLReadOnlyK = .ok acl.ReadOnlyBasicRule
      ∧ parseBasicACL basicACLPublicK = .ok acl.PublicBasicRule)
    ∧ (∀ h : Str, isHex32 h = true →
        parseBasicACL (strLit "0x" ++ h) = parseBasicACL h
          ∧ parseBasicACL (goToUpper h) = parseBasicACL h)
    ∧ (∀ s : Str, (s == basicACLPublicK) = false → (s == basicACLPrivateK) = false →
        (s == basicACLReadOnlyK) = false → parseUintHex32 (aclNorm s) = none →
        parseBasicACL s = .error (cantParseACLMsg ++ aclNorm s)) := by
  refine ⟨⟨by decide, by decide, by decide⟩, ?_, ?_⟩
  · intro h hx
    have hh : ∀ c ∈ h, c ∈ hexChars := by
      simp only [isHex32, Bool.and_eq_true, List.all_eq_true, decide_eq_true_eq] at hx
      exact hx.2
    obtain ⟨e1, e2, e3⟩ := hex_ne_canned h hh
    obtain ⟨f1, f2, f3⟩ := prepend0x_ne_canned h
    obtain ⟨g1, g2, g3⟩ := upper_hex_ne_canned h hh
    constructor
    · rw [parseBasicACL_default _ f1 f2 f3, parseBasicACL_default _ e1 e2 e3,
        aclNorm_prepend0x]
    · rw [parseBasicACL_default _ g1 g2 g3, parseBasicACL_default _ e1 e2 e3,
        aclNorm_upper h hh]
  · intro s h1 h2 h3 hfail
    rw [parseBasicACL_default s h1 h2 h3, hfail]

/-- Witness for C1 at the concrete inputs `"1f"` and `"zz"`. -/
theorem c1_parseBasicACL_spec_witness :
    (isHex32 (strLit "1f") = true
        ∧ parseBasicACL (strLit "0x" ++ strLit "1f") = parseBasicACL (strLit "1f"))
      ∧ parseBasicACL (strLit "zz") = .error (cantParseACLMsg ++ aclNorm (strLit "zz")) :=
  ⟨⟨by decide, (c1_parseBasicACL_spec.2.1 (strLit "1f") (by decide)).1⟩,
    c1_parseBasicACL_spec.2.2 (strLit "zz") (by decide) (by decide) (by decide) (by decide)⟩

/-! ## S3 error taxonomy (spec §7) -/

/-- The symbolic S3 error kinds the covered handlers produce. -/
inductive ApiErrCode where
  | accessDenied
  | invalidRequest
  | invalidMetadataDirective
  | invalidTaggingDirective
  | preconditionFailed
  | badRequest
  | noSuchBucket
  | noSuchKey
  | internalError
deriving DecidableEq, Repr

/-- Modelled from the spec (§7): the HTTP status recorded in the static error
table for each symbolic error (the table itself lives in `api/errors`, outside
the fragment). -/
def httpStatusOf : ApiErrCode → Nat
  | .accessDenied => 403
  | .invalidRequest => 400
  | .invalidMetadataDirective => 400
  | .invalidTaggingDirective => 400
  | .preconditionFailed => 412
  | .badRequest => 400
  | .noSuchBucket => 404
  | .noSuchKey => 404
  | .internalError => 500

/-! ## Maps and headers -/

/-- Go `map[string]string`, embedded as an association list (request header
maps carry each key once, so list order never matters below). -/
abbrev StrMap := List (Str × Str)

/-- Lookup in a string map (`m[k]`, with presence flag folded into `Option`). -/
def mapGet (m : StrMap) (k : Str) : Option Str :=
  match m.find? (fun kv => kv.1 == k) with
  | some kv => some kv.2
  | none => none

/-- Go map assignment `m[k] = v`: replace the binding if present, else add it. -/
def mapSet (m : StrMap) (k v : Str) : StrMap :=
  if m.any (fun kv => kv.1 == k) then
    m.map (fun kv => if kv.1 == k then (k, v) else kv)
  else m ++ [(k, v)]

/-- Go `http.Header.Get`: first value of the (canonicalised) key, `""` if absent. -/
def headerGet (hs : StrMap) (k : Str) : Str :=
  match hs.find? (fun kv => kv.1 == k) with
  | some kv => kv.2
  | none => []

/-- Canonical metadata header key start, `api.MetadataPrefix` = `X-Amz-Meta-`. -/
def metadataKeyStart : Str := strLit "X-Amz-Meta-"

/-- The canonical `Content-Type` header key (`api.ContentType`). -/
def contentTypeK : Str := strLit "Content-Type"

/-- Function `parseMetadata` (`api/handler/put.go:75-84`): keep every header whose name
begins with `X-Amz-Meta-`, strip that lead, keep the first value. -/
def parseMetadata (hs : StrMap) : StrMap :=
  (hs.filter (fun kv => metadataKeyStart.isPrefixOf kv.1)).map
    (fun kv => (kv.1.drop metadataKeyStart.length, kv.2))

/-! ## Access box and `getBoxData` (claim C4) -/

/-- Gate credentials (`accessbox.GateData`); its fields play no role in the
covered fragment, only its presence or absence does. -/
structure GateData where
deriving DecidableEq, Repr

/-- A placement policy value (`*netmap.PlacementPolicy`). The external parser
is opaque to the fragment; a parsed policy is represented by the string it was
parsed from. -/
inductive PlacementPolicy where
  | parsed (s : Str)
deriving DecidableEq, Repr

/-- Modelled from the spec (§4.4): `policy.Parse`, the external placement
policy parser; the spec only requires that the default string `"REP 3"`
parses successfully. -/
def policyParse (s : Str) : Except Str PlacementPolicy := .ok (.parsed s)

/-- A named placement policy carried by the access box
(`accessbox.ContainerPolicy`). -/
structure ContainerPolicy where
  locationConstraint : Str
  policy : PlacementPolicy
deriving DecidableEq, Repr

/-- The per-request credential envelope (`accessbox.Box`). In Go the request
context stores a pointer to this object. -/
structure Box where
  gate : Option GateData
  policies : List ContainerPolicy
deriving DecidableEq, Repr

/-- Function `getBoxData` (`api/handler/put.go:182-194`). The context value is a
pointer; `boxData := data` copies the pointer, so the write
`boxData.Gate = &accessbox.GateData{}` lands in the very object the context
holds. The embedding makes that aliasing explicit by returning both the
handler's view and the post-call state of the box held in the context — in Go
they are one object, hence always equal components here. -/
def getBoxData (ctxBox : Option Box) : Except Str (Box × Box) :=
  match ctxBox with
  | none => .error (strLit "couldn't get box data from context")
  | some data =>
      let boxData := if data.gate = none then { data with gate := some {} } else data
      .ok (boxData, boxData)

/-- A concrete access box with a nil gate and one named policy. -/
def c4Box : Box :=
  { gate := none,
    policies := [{ locationConstraint := strLit "eu", policy := .parsed (strLit "P1") }] }

/-- The same box after `getBoxData` has synthesized its gate. -/
def c4BoxFilled : Box := { c4Box with gate := some {} }

/-- Claim **C4**, counterexample. Synthesizing the empty gate for a box whose gate is
nil does modify the box object held in the context: after the call the
context's box differs from the one stored before it. -/
theorem c4_counterexample :
    getBoxData (some c4Box) = .ok (c4BoxFilled, c4BoxFilled) ∧ c4BoxFilled ≠ c4Box :=
  ⟨rfl, by decide⟩

/-- Claim **C4** (amended). `getBoxData` never touches the policy list, and leaves a
box whose gate is present untouched; but for a box with a nil gate it installs
the empty gate in place, so the box seen through the context changes in that
one field. -/
theorem c4_getBoxData_amended (b : Box) :
    (b.gate ≠ none → getBoxData (some b) = .ok (b, b))
      ∧ (b.gate = none →
          getBoxData (some b) =
            .ok ({ b with gate := some {} }, { b with gate := some {} }))
      ∧ (∀ r c, getBoxData (some b) = .ok (r, c) →
          r.policies = b.policies ∧ c.policies = b.policies) := by
  refine ⟨?_, ?_, ?_⟩
  · intro hne
    simp [getBoxData, hne]
  · intro h0
    simp [getBoxData, h0]
  · intro r c h
    simp only [getBoxData, Except.ok.injEq, Prod.mk.injEq] at h
    obtain ⟨hr, hc⟩ := h
    subst hr
    subst hc
    cases hgg : b.gate <;> simp [hgg]

/-- Witness for the amended C4 at a concrete box with a present gate. -/
theorem c4_getBoxData_amended_witness :
    getBoxData (some { gate := some {}, policies := [] }) =
      .ok ({ gate := some {}, policies := [] }, { gate := some {}, policies := [] }) :=
  (c4_getBoxData_amended { gate := some {}, policies := [] }).1 (by decide)

/-! ## Auth middleware (`api/user-auth.go`, claim C5) -/

/-- Result classification of `center.Authenticate(r)` (the credential center
is an external collaborator; the middleware only distinguishes these cases). -/
inductive AuthError where
  | noAuthorizationHeader
  | other (msg : Str)
deriving DecidableEq, Repr

/-- What the middleware does with the request: either write an error response
and stop, or run the inner handler with the given `BoxData` context slot. -/
inductive AuthOutcome where
  | errorResponse (e : ApiErrCode)
  | innerRun (boxData : Option Box)
deriving DecidableEq, Repr

/-- The per-request body of `AttachUserAuth` (`api/user-auth.go:19-40`):
`ctxBox` is the `BoxData` slot of the incoming request context (absent unless
something upstream stored a box). -/
def attachUserAuth (authRes : Except AuthError Box) (ctxBox : Option Box) : AuthOutcome :=
  match authRes with
  | .error e =>
      if e = .noAuthorizationHeader then .innerRun ctxBox
      else .errorResponse .accessDenied
  | .ok box => .innerRun (some box)

/-- Claim **C5**. Missing authorization header: the inner handler runs with the
unmodified context slot. Any other auth error: 403 `AccessDenied` and the
inner handler never runs. Success: the box is stored in the `BoxData` slot the
inner handler sees. -/
theorem c5_attachUserAuth_spec :
    (∀ ctxBox : Option Box,
        attachUserAuth (.error .noAuthorizationHeader) ctxBox = .innerRun ctxBox)
    ∧ (∀ (msg : Str) (ctxBox : Option Box),
        attachUserAuth (.error (.other msg)) ctxBox = .errorResponse .accessDenied)
    ∧ httpStatusOf .accessDenied = 403
    ∧ (∀ (box : Box) (ctxBox : Option Box),
        attachUserAuth (.ok box) ctxBox = .innerRun (some box)) :=
  ⟨fun _ => rfl, fun _ _ => rfl, rfl, fun _ _ => rfl⟩

/-! ## CREATE-BUCKET pieces (`api/handler/put.go:86-143`, claims C6 and C7) -/

/-- The ACL resolution step of `CreateBucketHandler` (`put.go:94-98`): header
absent → the open `publicBasicRule` default; header present → `parseBasicACL`
of its first value. -/
def createBucketACL (aclHeader : Option Str) : Except Str Nat :=
  match aclHeader with
  | some v => parseBasicACL v
  | none => .ok publicBasicRule

/-- Claim **C7**. With no `x-amz-acl` header the ACL passed on in
`CreateBucketParams` is the public basic rule `0x0FFFFFFF`, i.e. the same
constant `parseBasicACL` returns for `public-read-write`. -/
theorem c7_createBucket_default_acl :
    createBucketACL none = .ok publicBasicRule
      ∧ publicBasicRule = 0x0FFFFFFF
      ∧ parseBasicACL basicACLPublicK = .ok publicBasicRule :=
  ⟨rfl, rfl, by decide⟩

/-- The placement-policy resolution of `CreateBucketHandler` (`put.go:117-131`):
a non-empty location constraint adopts the policy of the first box entry whose
constraint matches verbatim; with no match, or an empty constraint, the
default policy string `"REP 3"` is parsed. -/
def resolveBucketPolicy (constraint : Str) (boxPolicies : List ContainerPolicy) :
    Except Str PlacementPolicy :=
  let fromBox : Option PlacementPolicy :=
    if constraint.isEmpty then none
    else
      match boxPolicies.find? (fun pp => pp.locationConstraint == constraint) with
      | some pp => some pp.policy
      | none => none
  match fromBox with
  | some pl => .ok pl
  | none => policyParse defaultPolicyK

/-- Claim **C6**. Non-empty constraint with a first verbatim match adopts that
entry's policy; no match, or an empty constraint, falls back to parsing
`"REP 3"`. -/
theorem c6_createBucket_policy (constraint : Str) (pols : List ContainerPolicy) :
    (∀ pp : ContainerPolicy, constraint.isEmpty = false →
        pols.find? (fun q => q.locationConstraint == constraint) = some pp →
        resolveBucketPolicy constraint pols = .ok pp.policy)
    ∧ (constraint.isEmpty = false →
        pols.find? (fun q => q.locationConstraint == constraint) = none →
        resolveBucketPolicy constraint pols = policyParse defaultPolicyK)
    ∧ (constraint.isEmpty = true →
        resolveBucketPolicy constraint pols = policyParse defaultPolicyK) := by
  refine ⟨?_, ?_, ?_⟩
  · intro pp hne hfind
    simp [resolveBucketPolicy, hne, hfind]
  · intro hne hfind
    simp [resolveBucketPolicy, hne, hfind]
  · intro hemp
    simp [resolveBucketPolicy, hemp]

/-- Witness for C6: the `eu` constraint picks the matching box policy
(spec scenario S2), and an empty constraint parses `"REP 3"` (scenario S3). -/
theorem c6_createBucket_policy_witness :
    resolveBucketPolicy (strLit "eu")
        [{ locationConstraint := strLit "eu", policy := .parsed (strLit "P_eu") }]
      = .ok (.parsed (strLit "P_eu"))
    ∧ resolveBucketPolicy [] [] = policyParse defaultPolicyK :=
  ⟨(c6_createBucket_policy (strLit "eu")
      [{ locationConstraint := strLit "eu", policy := .parsed (strLit "P_eu") }]).1
      { locationConstraint := strLit "eu", policy := .parsed (strLit "P_eu") } rfl rfl,
    (c6_createBucket_policy [] []).2.2 rfl⟩

/-! ## COPY handler data (`api/handler/put.go`, second fragment) -/

/-- Resolved object descriptor (`layer.ObjectInfo`): the value parts the COPY
pipeline reads. -/
structure ObjectInfo where
  bucket : Str
  name : Str
  size : Nat
  contentType : Str
  headers : StrMap
  hashSum : Str
  created : Nat
  version : Str
deriving DecidableEq, Repr

/-- Resolved bucket handle (`data.BucketInfo`), opaque to the claims. -/
structure BktInfo where
  name : Str
deriving DecidableEq, Repr

/-- Destination bucket settings (`GetBucketSettings` result), opaque here. -/
structure BucketSettings where
deriving DecidableEq, Repr

/-- Server-side-encryption parameters; only the enabled flag is observable in
the covered control flow. -/
structure EncryptionParams where
  enabled : Bool
deriving DecidableEq, Repr

/-- The four copy-conditional header values (`conditionalArgs`): empty strings
and `none` stand for absent headers. -/
structure ConditionalArgs where
  ifMatch : Str
  ifNoneMatch : Str
  ifModifiedSince : Option Nat
  ifUnmodifiedSince : Option Nat
deriving DecidableEq, Repr

/-- Struct `copyObjectArgs`: conditionals plus the two directives. -/
structure CopyObjectArgs where
  conditional : ConditionalArgs
  metadataDirective : Str
  taggingDirective : Str
deriving DecidableEq, Repr

/-- Canonical header keys used by the COPY pipeline. -/
def amzCopySourceK : Str := strLit "X-Amz-Copy-Source"

/-- The `versionId` query parameter key. -/
def queryVersionIDK : Str := strLit "versionId"

/-- Header `x-amz-metadata-directive`, canonicalised. -/
def amzMetadataDirectiveK : Str := strLit "X-Amz-Metadata-Directive"

/-- Header `x-amz-tagging-directive`, canonicalised. -/
def amzTaggingDirectiveK : Str := strLit "X-Amz-Tagging-Directive"

/-- Header `x-amz-copy-source-if-match`, canonicalised. -/
def amzCopyIfMatchK : Str := strLit "X-Amz-Copy-Source-If-Match"

/-- Header `x-amz-copy-source-if-none-match`, canonicalised. -/
def amzCopyIfNoneMatchK : Str := strLit "X-Amz-Copy-Source-If-None-Match"

/-- Header `x-amz-copy-source-if-modified-since`, canonicalised. -/
def amzCopyIfModifiedSinceK : Str := strLit "X-Amz-Copy-Source-If-Modified-Since"

/-- Header `x-amz-copy-source-if-unmodified-since`, canonicalised. -/
def amzCopyIfUnmodifiedSinceK : Str := strLit "X-Amz-Copy-Source-If-Unmodified-Since"

/-- The `REPLACE` directive constant. -/
def replaceDirectiveK : Str := strLit "REPLACE"

/-- The `COPY` directive constant. -/
def copyDirectiveK : Str := strLit "COPY"

/-- Function `isValidDirective` (`put.go:467-470`). -/
def isValidDirective (d : Str) : Bool :=
  d.isEmpty || d == replaceDirectiveK || d == copyDirectiveK

/-- One character of the regex class `[a-z0-9.\-]`. -/
def isBucketChar (c : Char) : Bool :=
  ('a' ≤ c && c ≤ 'z') || ('0' ≤ c && c ≤ '9') || c == '.' || c == '-'

/-- Function `path2BucketObject` (`put.go:226-233`): match
`^/?(?P<bucket_name>[a-z0-9.\-]{3,63})/(?P<object_name>.+)$` and return the
two groups, else `ErrInvalidRequest`. The bucket class excludes `/`, so the
greedy bucket group is exactly the maximal run of class characters; `.` does
not match a newline and `$` anchors at end of text. The optional leading
slash is consumed first. -/
def stripLeadSlash (path : Str) : Str :=
  match path with
  | c :: rest => if c = '/' then rest else path
  | [] => path

/-- Function `path2BucketObject` continued: the regex match itself. -/
def path2BucketObject (path : Str) : Except ApiErrCode (Str × Str) :=
  let p := stripLeadSlash path
  let bucket := p.takeWhile (fun c => isBucketChar c)
  let rest := p.dropWhile (fun c => isBucketChar c)
  if 3 ≤ bucket.length ∧ bucket.length ≤ 63 then
    match rest with
    | c :: obj =>
        if c = '/' then
          if !obj.isEmpty && obj.all (fun ch => !(ch == '\n')) then .ok (bucket, obj)
          else .error .invalidRequest
        else .error .invalidRequest
    | [] => .error .invalidRequest
  else .error .invalidRequest

/-- Modelled from the spec (§8.5): `checkPreconditions` (defined outside the
fragment) — `false` (failure) iff a set `If-Match` differs from the ETag, a
set `If-None-Match` equals it, `If-Modified-Since ≥ LastModified`, or
`If-Unmodified-Since < LastModified`; absent headers impose nothing. -/
def checkPreconditions (info : ObjectInfo) (args : ConditionalArgs) : Bool :=
  !((!args.ifMatch.isEmpty && !(args.ifMatch == info.hashSum))
    || (!args.ifNoneMatch.isEmpty && args.ifNoneMatch == info.hashSum)
    || (match args.ifModifiedSince with
        | some t => decide (info.created ≤ t)
        | none => false)
    || (match args.ifUnmodifiedSince with
        | some t => decide (t < info.created)
        | none => false))

/-- The COPY request as the handler sees it: canonicalised headers (first
values) and the destination names from the routed `ReqInfo`. -/
structure CopyRequest where
  headers : StrMap
  dstBucketName : Str
  dstObjectName : Str
deriving DecidableEq, Repr

/-- Modelled from the spec (§4.5 step 3): "any ACL header is present" — the
`x-amz-acl` header or any `x-amz-grant-*` header (the concrete header list of
`containsACLHeaders` lives outside the fragment). -/
def containsACLHeaders (r : CopyRequest) : Bool :=
  r.headers.any (fun kv =>
    kv.1 == strLit "X-Amz-Acl" || (strLit "X-Amz-Grant-").isPrefixOf kv.1)

/-- The path and query of a successfully parsed copy-source URL. -/
structure ParsedURL where
  path : Str
  query : StrMap
deriving DecidableEq, Repr

/-- The observable interactions of one COPY request with the object layer
(with the arguments the claims are about). -/
inductive LayerCall where
  | resolveSrcBucket (bucket : Str)
  | resolveDstBucket (bucket : Str)
  | getObjectInfoC (object : Str) (version : Str)
  | getObjectTaggingC (object : Str)
  | getBucketSettingsC
  | copyObjectC (dstObject : Str) (header : StrMap)
  | putBucketACLC
  | putObjectTaggingC (dstObject : Str)
  | notifyObjectCreatedCopy
deriving DecidableEq, Repr

/-- What the handler writes to the HTTP response. -/
inductive WriteAction where
  | writeError (e : ApiErrCode)
  | writeCopyResult (etag : Str) (lastModified : Nat)
  | setSSEHeaders
deriving DecidableEq, Repr

/-- A finished handler run: response writes, object-layer calls in order, and
log lines. -/
structure HOut where
  writes : List WriteAction
  calls : List LayerCall
  logs : List Str
deriving DecidableEq, Repr

/-- Oracle for the out-of-fragment collaborators of `CopyObjectHandler`: each
field is the result the corresponding call returns during this request.
`urlParse` models `net/url.Parse` on the copy-source header (`none` = parse
error); `parseHTTPTime` models the HTTP-date parser (modelled from the spec:
empty value → `ok none`, malformed → error). -/
structure CopyEnv where
  urlParse : Str → Option ParsedURL
  getBucketSrc : Except ApiErrCode BktInfo
  getBucketDst : Except ApiErrCode BktInfo
  getSessionTokenSetEACL : Except ApiErrCode Unit
  getObjectInfo : Except ApiErrCode ObjectInfo
  parseHTTPTime : Str → Except ApiErrCode (Option Nat)
  parseTaggingHeader : Except ApiErrCode (Option StrMap)
  getObjectTagging : Except ApiErrCode (Option StrMap)
  formEncryptionParams : Except ApiErrCode EncryptionParams
  matchObjectEnc : Bool
  getCopiesNumber : Except ApiErrCode Nat
  getBucketSettings : Except ApiErrCode BucketSettings
  formObjectLock : Except ApiErrCode Unit
  copyObject : Except ApiErrCode ObjectInfo
  encodeOk : Bool
  getNewEaclTable : Except ApiErrCode Unit
  putBucketACL : Except ApiErrCode Unit
  putObjectTagging : Except ApiErrCode Unit
  sendNotifications : Except Str Unit

/-- Function `parseCopyObjectArgs` (`put.go:438-465`): conditional headers first
(malformed dates abort with their own error), then the metadata directive is
validated, then the tagging directive. `parseTime` is the oracle's HTTP-date
parser, the only collaborator this function consults. -/
def parseCopyObjectArgsM (parseTime : Str → Except ApiErrCode (Option Nat))
    (hs : StrMap) : Except ApiErrCode CopyObjectArgs :=
  let ifMatchV := headerGet hs amzCopyIfMatchK
  let ifNoneMatchV := headerGet hs amzCopyIfNoneMatchK
  match parseTime (headerGet hs amzCopyIfModifiedSinceK) with
  | .error e => .error e
  | .ok t1 =>
    match parseTime (headerGet hs amzCopyIfUnmodifiedSinceK) with
    | .error e => .error e
    | .ok t2 =>
      let args : ConditionalArgs :=
        { ifMatch := ifMatchV, ifNoneMatch := ifNoneMatchV,
          ifModifiedSince := t1, ifUnmodifiedSince := t2 }
      let md := headerGet hs amzMetadataDirectiveK
      if isValidDirective md then
        let td := headerGet hs amzTaggingDirectiveK
        if isValidDirective td then
          .ok { conditional := args, metadataDirective := md, taggingDirective := td }
        else .error .invalidTaggingDirective
      else .error .invalidMetadataDirective

/-- Lines 340-347 of `put.go`: a nil metadata map inherits the source headers
(with `Content-Type` filled in from the source when non-empty); a non-nil map
gets the request's `Content-Type` when that header is non-empty. -/
def resolveCopyMetadata (metadata : Option StrMap) (reqHeaders : StrMap)
    (objInfo : ObjectInfo) : StrMap :=
  match metadata with
  | none =>
      if objInfo.contentType.isEmpty then objInfo.headers
      else mapSet objInfo.headers contentTypeK objInfo.contentType
  | some m =>
      let ct := headerGet reqHeaders contentTypeK
      if ct.isEmpty then m else mapSet m contentTypeK ct

/-- The destination metadata of COPY as a function of the metadata directive:
the selection at `put.go:300-302` composed with the resolution at 340-347. -/
def copyDestMetadata (reqHeaders : StrMap) (directive : Str) (objInfo : ObjectInfo) : StrMap :=
  resolveCopyMetadata
    (if directive == replaceDirectiveK then some (parseMetadata reqHeaders) else none)
    reqHeaders objInfo

/-! ## The COPY pipeline (`put.go:235-436`), staged along its source order.
Each stage receives the object-layer calls already made (`acc`) and produces
the finished `HOut`; error leaves reproduce the corresponding
`logAndSendError` (one error write plus its log line). -/

/-- Lines 418-435: the "object is copied" log, the `ObjectCreated.Copy`
notification whose failure is only logged, and the trailing SSE-C headers. -/
def copyNotifyAndFinish (env : CopyEnv) (objInfoC : ObjectInfo)
    (encp : EncryptionParams) (preWrites : List WriteAction)
    (acc : List LayerCall) : HOut :=
  let notifLog : List Str :=
    match env.sendNotifications with
    | .ok _ => []
    | .error _ => [strLit "couldn't send notification"]
  { writes := preWrites ++ (if encp.enabled then [.setSSEHeaders] else []),
    calls := acc ++ [.notifyObjectCreatedCopy],
    logs := [strLit "object is copied"] ++ notifLog }

/-- Lines 406-416: upload the destination tag set when one was produced. -/
def copyApplyTagging (env : CopyEnv) (r : CopyRequest) (tagSet : Option StrMap)
    (objInfoC : ObjectInfo) (encp : EncryptionParams)
    (preWrites : List WriteAction) (acc : List LayerCall) : HOut :=
  match tagSet with
  | some _ =>
      match env.putObjectTagging with
      | .error e =>
          { writes := preWrites ++ [.writeError e],
            calls := acc ++ [.putObjectTaggingC r.dstObjectName],
            logs := [strLit "could not upload object tagging"] }
      | .ok _ =>
          copyNotifyAndFinish env objInfoC encp preWrites
            (acc ++ [.putObjectTaggingC r.dstObjectName])
  | none => copyNotifyAndFinish env objInfoC encp preWrites acc

/-- Lines 387-404: when ACL headers were present, rebuild the EACL table and
apply it to the destination. -/
def copyApplyACL (env : CopyEnv) (r : CopyRequest) (cACL : Bool)
    (tagSet : Option StrMap) (objInfoC : ObjectInfo) (encp : EncryptionParams)
    (preWrites : List WriteAction) (acc : List LayerCall) : HOut :=
  if cACL then
    match env.getNewEaclTable with
    | .error e =>
        { writes := preWrites ++ [.writeError e], calls := acc,
          logs := [strLit "could not get new eacl table"] }
    | .ok _ =>
        match env.putBucketACL with
        | .error e =>
            { writes := preWrites ++ [.writeError e],
              calls := acc ++ [.putBucketACLC],
              logs := [strLit "could not put bucket acl"] }
        | .ok _ =>
            copyApplyTagging env r tagSet objInfoC encp preWrites
              (acc ++ [.putBucketACLC])
  else copyApplyTagging env r tagSet objInfoC encp preWrites acc

/-- Lines 324-385: encryption params and match, preconditions, destination
metadata, copies number, bucket settings, object lock, the backend copy and
the `CopyObjectResult` body. -/
def copyCheckAndCopy (env : CopyEnv) (r : CopyRequest) (cACL : Bool)
    (tagSet : Option StrMap) (objInfo : ObjectInfo) (args : CopyObjectArgs)
    (metadata : Option StrMap) (acc : List LayerCall) : HOut :=
  match env.formEncryptionParams with
  | .error e =>
      { writes := [.writeError e], calls := acc, logs := [strLit "invalid sse headers"] }
  | .ok encp =>
    if !env.matchObjectEnc then
      { writes := [.writeError .badRequest], calls := acc,
        logs := [strLit "encryption doesn't match object"] }
    else if !checkPreconditions objInfo args.conditional then
      { writes := [.writeError .preconditionFailed], calls := acc,
        logs := [strLit "precondition failed"] }
    else
      let metadataR := resolveCopyMetadata metadata r.headers objInfo
      match env.getCopiesNumber with
      | .error e =>
          { writes := [.writeError e], calls := acc,
            logs := [strLit "invalid copies number"] }
      | .ok _ =>
        match env.getBucketSettings with
        | .error e =>
            { writes := [.writeError e], calls := acc ++ [.getBucketSettingsC],
              logs := [strLit "could not get bucket settings"] }
        | .ok _ =>
          match env.formObjectLock with
          | .error e =>
              { writes := [.writeError e], calls := acc ++ [.getBucketSettingsC],
                logs := [strLit "could not form object lock"] }
          | .ok _ =>
            match env.copyObject with
            | .error e =>
                { writes := [.writeError e],
                  calls := acc ++ [.getBucketSettingsC,
                    .copyObjectC r.dstObjectName metadataR],
                  logs := [strLit "couldn't copy object"] }
            | .ok objInfoC =>
              if env.encodeOk then
                copyApplyACL env r cACL tagSet objInfoC encp
                  [.writeCopyResult objInfoC.hashSum objInfoC.created]
                  (acc ++ [.getBucketSettingsC,
                    .copyObjectC r.dstObjectName metadataR])
              else
                { writes := [.writeError .internalError],
                  calls := acc ++ [.getBucketSettingsC,
                    .copyObjectC r.dstObjectName metadataR],
                  logs := [strLit "something went wrong"] }

/-- Lines 300-322: metadata selection by directive and the tag-set branch
(replace from the header, or fetch the source object's tags). -/
def copyWithArgs (env : CopyEnv) (r : CopyRequest) (cACL : Bool) (srcObject : Str)
    (objInfo : ObjectInfo) (args : CopyObjectArgs) (acc : List LayerCall) : HOut :=
  let metadata : Option StrMap :=
    if args.metadataDirective == replaceDirectiveK then some (parseMetadata r.headers)
    else none
  if args.taggingDirective == replaceDirectiveK then
    match env.parseTaggingHeader with
    | .error e =>
        { writes := [.writeError e], calls := acc,
          logs := [strLit "could not parse tagging header"] }
    | .ok tagSet => copyCheckAndCopy env r cACL tagSet objInfo args metadata acc
  else
    match env.getObjectTagging with
    | .error e =>
        { writes := [.writeError e], calls := acc ++ [.getObjectTaggingC srcObject],
          logs := [strLit "could not get object tagging"] }
    | .ok tagSet =>
        copyCheckAndCopy env r cACL tagSet objInfo args metadata
          (acc ++ [.getObjectTaggingC srcObject])

/-- Lines 259-298: split the source path, resolve the two buckets, fetch the
EACL session token when ACL headers are present, head the source object and
parse the request arguments. -/
def copyFromSource (env : CopyEnv) (r : CopyRequest) (versionID src : Str) : HOut :=
  let cACL := containsACLHeaders r
  match path2BucketObject src with
  | .error e =>
      { writes := [.writeError e], calls := [], logs := [strLit "invalid source copy"] }
  | .ok (srcBucket, srcObject) =>
    match env.getBucketSrc with
    | .error e =>
        { writes := [.writeError e], calls := [.resolveSrcBucket srcBucket],
          logs := [strLit "couldn't get source bucket"] }
    | .ok _ =>
      match env.getBucketDst with
      | .error e =>
          { writes := [.writeError e],
            calls := [.resolveSrcBucket srcBucket, .resolveDstBucket r.dstBucketName],
            logs := [strLit "couldn't get target bucket"] }
      | .ok _ =>
        match (if cACL then env.getSessionTokenSetEACL else .ok ()) with
        | .error e =>
            { writes := [.writeError e],
              calls := [.resolveSrcBucket srcBucket, .resolveDstBucket r.dstBucketName],
              logs := [strLit "could not get eacl session token from a box"] }
        | .ok _ =>
          match env.getObjectInfo with
          | .error e =>
              { writes := [.writeError e],
                calls := [.resolveSrcBucket srcBucket,
                  .resolveDstBucket r.dstBucketName,
                  .getObjectInfoC srcObject versionID],
                logs := [strLit "could not find object"] }
          | .ok objInfo =>
            match parseCopyObjectArgsM env.parseHTTPTime r.headers with
            | .error e =>
                { writes := [.writeError e],
                  calls := [.resolveSrcBucket srcBucket,
                    .resolveDstBucket r.dstBucketName,
                    .getObjectInfoC srcObject versionID],
                  logs := [strLit "could not parse request params"] }
            | .ok args =>
                copyWithArgs env r cACL srcObject objInfo args
                  [.resolveSrcBucket srcBucket, .resolveDstBucket r.dstBucketName,
                    .getObjectInfoC srcObject versionID]

/-- Handler `CopyObjectHandler` (`put.go:235-436`): URL-parse the copy-source header —
on success take the `versionId` query value and the path, on failure silently
keep the raw header value and an empty version id — then run the pipeline. -/
def copyObjectHandler (env : CopyEnv) (r : CopyRequest) : HOut :=
  let src0 := headerGet r.headers amzCopySourceK
  match env.urlParse src0 with
  | some u => copyFromSource env r (headerGet u.query queryVersionIDK) u.path
  | none => copyFromSource env r [] src0

/-- Is this call the head (`GetObjectInfo`) call? -/
def isHeadCall : LayerCall → Bool
  | .getObjectInfoC _ _ => true
  | _ => false

/-- Is this call the backend `CopyObject` call? -/
def isCopyCall : LayerCall → Bool
  | .copyObjectC _ _ => true
  | _ => false

/-! ## Concrete fixtures for the COPY scenarios -/

/-- The source object of the concrete scenarios: ETag `abc`, content type
`text/plain`, no user metadata. -/
def srcObjInfo : ObjectInfo :=
  { bucket := strLit "src", name := strLit "key", size := 5,
    contentType := strLit "text/plain", headers := [],
    hashSum := strLit "abc", created := 100, version := strLit "v1" }

/-- The object descriptor the backend copy returns in the happy scenarios. -/
def dstObjInfo : ObjectInfo :=
  { srcObjInfo with bucket := strLit "dst", hashSum := strLit "etag2", created := 200 }

/-- An oracle on which every collaborator call succeeds. -/
def happyEnv : CopyEnv :=
  { urlParse := fun s => some { path := s, query := [] },
    getBucketSrc := .ok { name := strLit "src" },
    getBucketDst := .ok { name := strLit "dst" },
    getSessionTokenSetEACL := .ok (),
    getObjectInfo := .ok srcObjInfo,
    parseHTTPTime := fun _ => .ok none,
    parseTaggingHeader := .ok none,
    getObjectTagging := .ok none,
    formEncryptionParams := .ok { enabled := false },
    matchObjectEnc := true,
    getCopiesNumber := .ok 1,
    getBucketSettings := .ok {},
    formObjectLock := .ok (),
    copyObject := .ok dstObjInfo,
    encodeOk := true,
    getNewEaclTable := .ok (),
    putBucketACL := .ok (),
    putObjectTagging := .ok (),
    sendNotifications := .ok () }

/-- Scenario S6: `x-amz-copy-source: /src/key` and
`x-amz-metadata-directive: MERGE`. -/
def c2Req : CopyRequest :=
  { headers := [(amzCopySourceK, strLit "/src/key"),
                (amzMetadataDirectiveK, strLit "MERGE")],
    dstBucketName := strLit "dst", dstObjectName := strLit "obj" }

/-- Scenario S5: source ETag `abc` and
`x-amz-copy-source-if-none-match: abc`. -/
def c8Req : CopyRequest :=
  { headers := [(amzCopySourceK, strLit "/src/key"),
                (amzCopyIfNoneMatchK, strLit "abc")],
    dstBucketName := strLit "dst", dstObjectName := strLit "obj" }

/-- A plain COPY request with no conditional, directive or ACL headers. -/
def happyReq : CopyRequest :=
  { headers := [(amzCopySourceK, strLit "/src/key")],
    dstBucketName := strLit "dst", dstObjectName := strLit "obj" }

/-! ## Claim C2 -/

/-- Claim **C2**, counterexample. For the `MERGE` request the handler does answer
400 `InvalidMetadataDirective` — but the head (`GetObjectInfo`) call has
already been made, so "makes no head call" is false. -/
theorem c2_counterexample :
    (copyObjectHandler happyEnv c2Req).writes = [.writeError .invalidMetadataDirective]
      ∧ (copyObjectHandler happyEnv c2Req).calls.any isHeadCall = true :=
  ⟨rfl, rfl⟩

/-- Claim **C2** (amended). When the steps before argument parsing succeed and the
metadata (resp. tagging) directive is invalid, the response is the
400 `InvalidMetadataDirective` (resp. `InvalidTaggingDirective`) error and no
`CopyObject` call is made — but the head call has already been performed,
since `GetObjectInfo` precedes directive validation. -/
theorem c2_invalid_directive_amended :
    (∀ (env : CopyEnv) (r : CopyRequest) (u : ParsedURL) (sb so : Str)
        (b1 b2 : BktInfo) (oi : ObjectInfo) (ec : ApiErrCode),
      env.urlParse (headerGet r.headers amzCopySourceK) = some u →
      path2BucketObject u.path = .ok (sb, so) →
      env.getBucketSrc = .ok b1 → env.getBucketDst = .ok b2 →
      env.getSessionTokenSetEACL = .ok () → env.getObjectInfo = .ok oi →
      parseCopyObjectArgsM env.parseHTTPTime r.headers = .error ec →
      (copyObjectHandler env r).writes = [.writeError ec]
        ∧ (copyObjectHandler env r).calls.any isCopyCall = false
        ∧ (copyObjectHandler env r).calls.any isHeadCall = true)
    ∧ (∀ (parseTime : Str → Except ApiErrCode (Option Nat)) (hs : StrMap)
        (t1 t2 : Option Nat),
      parseTime (headerGet hs amzCopyIfModifiedSinceK) = .ok t1 →
      parseTime (headerGet hs amzCopyIfUnmodifiedSinceK) = .ok t2 →
      (isValidDirective (headerGet hs amzMetadataDirectiveK) = false →
        parseCopyObjectArgsM parseTime hs = .error .invalidMetadataDirective)
      ∧ (isValidDirective (headerGet hs amzMetadataDirectiveK) = true →
        isValidDirective (headerGet hs amzTaggingDirectiveK) = false →
        parseCopyObjectArgsM parseTime hs = .error .invalidTaggingDirective))
    ∧ httpStatusOf .invalidMetadataDirective = 400
    ∧ httpStatusOf .invalidTaggingDirective = 400 := by
  refine ⟨?_, ?_, rfl, rfl⟩
  · intro env r u sb so b1 b2 oi ec hurl hpath hb1 hb2 htok hoi hargs
    simp only [copyObjectHandler, copyFromSource, hurl, hpath, hb1, hb2, htok, hoi,
      hargs, ite_self]
    simp [isCopyCall, isHeadCall]
  · intro parseTime hs t1 t2 ht1 ht2
    constructor
    · intro hmd
      simp only [parseCopyObjectArgsM, ht1, ht2, hmd]
      simp
    · intro hmd htd
      simp only [parseCopyObjectArgsM, ht1, ht2, hmd, htd]
      simp

/-- Witness for the amended C2 at the `MERGE` request of scenario S6. -/
theorem c2_invalid_directive_amended_witness :
    (copyObjectHandler happyEnv c2Req).writes = [.writeError .invalidMetadataDirective]
      ∧ (copyObjectHandler happyEnv c2Req).calls.any isCopyCall = false
      ∧ (copyObjectHandler happyEnv c2Req).calls.any isHeadCall = true :=
  c2_invalid_directive_amended.1 happyEnv c2Req
    { path := strLit "/src/key", query := [] } (strLit "src") (strLit "key")
    { name := strLit "src" } { name := strLit "dst" } srcObjInfo
    .invalidMetadataDirective rfl rfl rfl rfl rfl rfl rfl

/-! ## Claim C3 -/

/-- The request headers of scenario S4 without a `Content-Type` header. -/
def c3Headers : StrMap := [(strLit "X-Amz-Meta-X", strLit "Y")]

/-- Claim **C3**, counterexample. In scenario S4 (`REPLACE`, `x-amz-meta-X: Y`) with
no request `Content-Type` header, the destination metadata is `{"X":"Y"}`
with *no* `Content-Type` key at all, although the source carries
`text/plain` — the claimed `{"X":"Y", "Content-Type": header or source}` has
no matching `Content-Type` entry. -/
theorem c3_counterexample :
    copyDestMetadata c3Headers replaceDirectiveK srcObjInfo = [(strLit "X", strLit "Y")]
      ∧ mapGet (copyDestMetadata c3Headers replaceDirectiveK srcObjInfo) contentTypeK = none
      ∧ srcObjInfo.contentType = strLit "text/plain" :=
  ⟨rfl, rfl, rfl⟩

/-- Claim **C3** (amended). `REPLACE` re-derives the destination metadata from the
`x-amz-meta-*` headers, overriding `Content-Type` only when the request
carries a non-empty one (the source's content type is never consulted);
otherwise the source headers are inherited with `Content-Type` filled in from
the source when non-empty. In scenario S4 the `Content-Type` entry is present
exactly when the request sends one. -/
theorem c3_copy_metadata_amended :
    (∀ (hdrs : StrMap) (oi : ObjectInfo),
      (headerGet hdrs contentTypeK).isEmpty = false →
      copyDestMetadata hdrs replaceDirectiveK oi =
        mapSet (parseMetadata hdrs) contentTypeK (headerGet hdrs contentTypeK))
    ∧ (∀ (hdrs : StrMap) (oi : ObjectInfo),
      (headerGet hdrs contentTypeK).isEmpty = true →
      copyDestMetadata hdrs replaceDirectiveK oi = parseMetadata hdrs)
    ∧ (∀ (hdrs : StrMap) (oi : ObjectInfo) (d : Str),
      (d == replaceDirectiveK) = false → oi.contentType.isEmpty = false →
      copyDestMetadata hdrs d oi = mapSet oi.headers contentTypeK oi.contentType)
    ∧ (∀ (hdrs : StrMap) (oi : ObjectInfo) (d : Str),
      (d == replaceDirectiveK) = false → oi.contentType.isEmpty = true →
      copyDestMetadata hdrs d oi = oi.headers)
    ∧ copyDestMetadata ((strLit "Content-Type", strLit "text/html") :: c3Headers)
        replaceDirectiveK srcObjInfo
        = [(strLit "X", strLit "Y"), (strLit "Content-Type", strLit "text/html")] := by
  refine ⟨?_, ?_, ?_, ?_, rfl⟩
  · intro hdrs oi hct
    simp [copyDestMetadata, resolveCopyMetadata, hct]
  · intro hdrs oi hct
    simp [copyDestMetadata, resolveCopyMetadata, hct]
  · intro hdrs oi d hd hct
    simp [copyDestMetadata, resolveCopyMetadata, hd, hct]
  · intro hdrs oi d hd hct
    simp [copyDestMetadata, resolveCopyMetadata, hd, hct]

/-- Witness for the amended C3: scenario S4 with and without a request
`Content-Type`. -/
theorem c3_copy_metadata_amended_witness :
    copyDestMetadata ((strLit "Content-Type", strLit "text/html") :: c3Headers)
        replaceDirectiveK srcObjInfo
      = mapSet (parseMetadata ((strLit "Content-Type", strLit "text/html") :: c3Headers))
          contentTypeK
          (headerGet ((strLit "Content-Type", strLit "text/html") :: c3Headers) contentTypeK)
      ∧ copyDestMetadata c3Headers replaceDirectiveK srcObjInfo = parseMetadata c3Headers :=
  ⟨c3_copy_metadata_amended.1 ((strLit "Content-Type", strLit "text/html") :: c3Headers)
      srcObjInfo rfl,
    c3_copy_metadata_amended.2.1 c3Headers srcObjInfo rfl⟩

/-! ## Claim C8 -/

/-- Claim **C8**. When the pipeline reaches the precondition check and the
conditional headers fail against the source `ObjectInfo`, the response is the
412 `PreconditionFailed` error and the backend `CopyObject` call is never
made. -/
theorem c8_precondition_no_copy (env : CopyEnv) (r : CopyRequest) (u : ParsedURL)
    (sb so : Str) (b1 b2 : BktInfo) (oi : ObjectInfo) (args : CopyObjectArgs)
    (ts : Option StrMap) (ep : EncryptionParams)
    (hurl : env.urlParse (headerGet r.headers amzCopySourceK) = some u)
    (hpath : path2BucketObject u.path = .ok (sb, so))
    (hb1 : env.getBucketSrc = .ok b1) (hb2 : env.getBucketDst = .ok b2)
    (htok : env.getSessionTokenSetEACL = .ok ())
    (hoi : env.getObjectInfo = .ok oi)
    (hargs : parseCopyObjectArgsM env.parseHTTPTime r.headers = .ok args)
    (htagH : env.parseTaggingHeader = .ok ts)
    (htagG : env.getObjectTagging = .ok ts)
    (hencp : env.formEncryptionParams = .ok ep)
    (hmatch : env.matchObjectEnc = true)
    (hpre : checkPreconditions oi args.conditional = false) :
    (copyObjectHandler env r).writes = [.writeError .preconditionFailed]
      ∧ httpStatusOf .preconditionFailed = 412
      ∧ (copyObjectHandler env r).calls.any isCopyCall = false := by
  simp only [copyObjectHandler, copyFromSource, copyWithArgs, copyCheckAndCopy,
    hurl, hpath, hb1, hb2, htok, hoi, hargs, htagH, htagG, hencp, hmatch, hpre, ite_self]
  cases htd : args.taggingDirective == replaceDirectiveK <;>
    simp [htd, isCopyCall, httpStatusOf]

/-- The parsed arguments of the S5 request. -/
def c8Conditional : ConditionalArgs :=
  { ifMatch := [], ifNoneMatch := strLit "abc",
    ifModifiedSince := none, ifUnmodifiedSince := none }

/-- The argument record `parseCopyObjectArgs` produces for the S5 request. -/
def c8Args : CopyObjectArgs :=
  { conditional := c8Conditional, metadataDirective := [], taggingDirective := [] }

/-- Witness for C8 at scenario S5 (`If-None-Match` equal to the source ETag). -/
theorem c8_precondition_no_copy_witness :
    (copyObjectHandler happyEnv c8Req).writes = [.writeError .preconditionFailed]
      ∧ httpStatusOf .preconditionFailed = 412
      ∧ (copyObjectHandler happyEnv c8Req).calls.any isCopyCall = false :=
  c8_precondition_no_copy happyEnv c8Req { path := strLit "/src/key", query := [] }
    (strLit "src") (strLit "key") { name := strLit "src" } { name := strLit "dst" }
    srcObjInfo c8Args none { enabled := false }
    rfl rfl rfl rfl rfl rfl rfl rfl rfl rfl rfl rfl

/-- Same response writes and same object-layer calls. -/
def sameWC (a b : HOut) : Prop := a.writes = b.writes ∧ a.calls = b.calls

section NotifIndep

variable (f1 : Str → Option ParsedURL)
variable (f2 f3 : Except ApiErrCode BktInfo)
variable (f4 : Except ApiErrCode Unit)
variable (f5 : Except ApiErrCode ObjectInfo)
variable (f6 : Str → Except ApiErrCode (Option Nat))
variable (f7 f8 : Except ApiErrCode (Option StrMap))
variable (f9 : Except ApiErrCode EncryptionParams)
variable (f10 : Bool)
variable (f11 : Except ApiErrCode Nat)
variable (f12 : Except ApiErrCode BucketSettings)
variable (f13 : Except ApiErrCode Unit)
variable (f14 : Except ApiErrCode ObjectInfo)
variable (f15 : Bool)
variable (f16 f17 f18 : Except ApiErrCode Unit)
variable (x y : Except Str Unit)

/-- The COPY oracle assembled from explicit fields (used to isolate the
notification-result field). -/
def mkCopyEnv : CopyEnv :=
  ⟨f1, f2, f3, f4, f5, f6, f7, f8, f9, f10, f11, f12, f13, f14, f15, f16, f17, f18, x⟩

theorem copyNotifyAndFinish_nf (oc : ObjectInfo) (ep : EncryptionParams)
    (pw : List WriteAction) (acc : List LayerCall) :
    sameWC
      (copyNotifyAndFinish (mkCopyEnv f1 f2 f3 f4 f5 f6 f7 f8 f9 f10 f11 f12 f13 f14 f15 f16 f17 f18 x) oc ep pw acc)
      (copyNotifyAndFinish (mkCopyEnv f1 f2 f3 f4 f5 f6 f7 f8 f9 f10 f11 f12 f13 f14 f15 f16 f17 f18 y) oc ep pw acc) :=
  ⟨rfl, rfl⟩

theorem copyApplyTagging_nf (r : CopyRequest) (tagSet : Option StrMap) (oc : ObjectInfo)
    (ep : EncryptionParams) (pw : List WriteAction) (acc : List LayerCall) :
    sameWC
      (copyApplyTagging (mkCopyEnv f1 f2 f3 f4 f5 f6 f7 f8 f9 f10 f11 f12 f13 f14 f15 f16 f17 f18 x) r tagSet oc ep pw acc)
      (copyApplyTagging (mkCopyEnv f1 f2 f3 f4 f5 f6 f7 f8 f9 f10 f11 f12 f13 f14 f15 f16 f17 f18 y) r tagSet oc ep pw acc) := by
  unfold copyApplyTagging mkCopyEnv
  dsimp only
  cases tagSet with
  | none => apply copyNotifyAndFinish_nf
  | some ts =>
      cases h17 : f18 with
      | error e => exact ⟨rfl, rfl⟩
      | ok u => apply copyNotifyAndFinish_nf

theorem copyApplyACL_nf (r : CopyRequest) (cACL : Bool) (tagSet : Option StrMap)
    (oc : ObjectInfo) (ep : EncryptionParams) (pw : List WriteAction) (acc : List LayerCall) :
    sameWC
      (copyApplyACL (mkCopyEnv f1 f2 f3 f4 f5 f6 f7 f8 f9 f10 f11 f12 f13 f14 f15 f16 f17 f18 x) r cACL tagSet oc ep pw acc)
      (copyApplyACL (mkCopyEnv f1 f2 f3 f4 f5 f6 f7 f8 f9 f10 f11 f12 f13 f14 f15 f16 f17 f18 y) r cACL tagSet oc ep pw acc) := by
  unfold copyApplyACL mkCopyEnv
  dsimp only
  cases cACL with
  | false => apply copyApplyTagging_nf
  | true =>
      cases h16 : f16 with
      | error e => exact ⟨rfl, rfl⟩
      | ok u =>
          cases h17 : f17 with
          | error e => exact ⟨rfl, rfl⟩
          | ok v => apply copyApplyTagging_nf

theorem copyCheckAndCopy_nf (r : CopyRequest) (cACL : Bool) (tagSet : Option StrMap)
    (oi : ObjectInfo) (args : CopyObjectArgs) (metadata : Option StrMap) (acc : List LayerCall) :
    sameWC
      (copyCheckAndCopy (mkCopyEnv f1 f2 f3 f4 f5 f6 f7 f8 f9 f10 f11 f12 f13 f14 f15 f16 f17 f18 x) r cACL tagSet oi args metadata acc)
      (copyCheckAndCopy (mkCopyEnv f1 f2 f3 f4 f5 f6 f7 f8 f9 f10 f11 f12 f13 f14 f15 f16 f17 f18 y) r cACL tagSet oi args metadata acc) := by
  unfold copyCheckAndCopy mkCopyEnv
  dsimp only
  cases h9 : f9 with
  | error e => exact ⟨rfl, rfl⟩
  | ok ep =>
      cases h10 : f10 with
      | false => exact ⟨rfl, rfl⟩
      | true =>
          cases hcp : checkPreconditions oi args.conditional with
          | false => exact ⟨rfl, rfl⟩
          | true =>
              cases h11 : f11 with
              | error e => exact ⟨rfl, rfl⟩
              | ok n =>
                  cases h12 : f12 with
                  | error e => exact ⟨rfl, rfl⟩
                  | ok st =>
                      cases h13 : f13 with
                      | error e => exact ⟨rfl, rfl⟩
                      | ok v =>
                          cases h14 : f14 with
                          | error e => exact ⟨rfl, rfl⟩
                          | ok oc =>
                              cases h15 : f15 with
                              | false => exact ⟨rfl, rfl⟩
                              | true => apply copyApplyACL_nf

theorem copyWithArgs_nf (r : CopyRequest) (cACL : Bool) (srcObject : Str)
    (oi : ObjectInfo) (args : CopyObjectArgs) (acc : List LayerCall) :
    sameWC
      (copyWithArgs (mkCopyEnv f1 f2 f3 f4 f5 f6 f7 f8 f9 f10 f11 f12 f13 f14 f15 f16 f17 f18 x) r cACL srcObject oi args acc)
      (copyWithArgs (mkCopyEnv f1 f2 f3 f4 f5 f6 f7 f8 f9 f10 f11 f12 f13 f14 f15 f16 f17 f18 y) r cACL srcObject oi args acc) := by
  unfold copyWithArgs mkCopyEnv
  dsimp only
  cases htd : args.taggingDirective == replaceDirectiveK with
  | true =>
      cases h7 : f7 with
      | error e => exact ⟨rfl, rfl⟩
      | ok ts => apply copyCheckAndCopy_nf
  | false =>
      cases h8 : f8 with
      | error e => exact ⟨rfl, rfl⟩
      | ok ts => apply copyCheckAndCopy_nf

theorem copyFromSource_nf (r : CopyRequest) (versionID src : Str) :
    sameWC
      (copyFromSource (mkCopyEnv f1 f2 f3 f4 f5 f6 f7 f8 f9 f10 f11 f12 f13 f14 f15 f16 f17 f18 x) r versionID src)
      (copyFromSource (mkCopyEnv f1 f2 f3 f4 f5 f6 f7 f8 f9 f10 f11 f12 f13 f14 f15 f16 f17 f18 y) r versionID src) := by
  unfold copyFromSource mkCopyEnv
  dsimp only
  cases hp : path2BucketObject src with
  | error e => exact ⟨rfl, rfl⟩
  | ok p =>
      obtain ⟨sb, so⟩ := p
      cases h2 : f2 with
      | error e => exact ⟨rfl, rfl⟩
      | ok b1 =>
          cases h3 : f3 with
          | error e => exact ⟨rfl, rfl⟩
          | ok b2 =>
              cases htok : (if containsACLHeaders r then f4 else Except.ok ()) with
              | error e => exact ⟨rfl, rfl⟩
              | ok u =>
                  cases h5 : f5 with
                  | error e => exact ⟨rfl, rfl⟩
                  | ok oi =>
                      cases ha : parseCopyObjectArgsM f6 r.headers with
                      | error e => exact ⟨rfl, rfl⟩
                      | ok args => apply copyWithArgs_nf

theorem copyObjectHandler_nf (r : CopyRequest) :
    sameWC
      (copyObjectHandler (mkCopyEnv f1 f2 f3 f4 f5 f6 f7 f8 f9 f10 f11 f12 f13 f14 f15 f16 f17 f18 x) r)
      (copyObjectHandler (mkCopyEnv f1 f2 f3 f4 f5 f6 f7 f8 f9 f10 f11 f12 f13 f14 f15 f16 f17 f18 y) r) := by
  unfold copyObjectHandler mkCopyEnv
  dsimp only
  cases hu : f1 (headerGet r.headers amzCopySourceK) with
  | none => apply copyFromSource_nf
  | some u => apply copyFromSource_nf

end NotifIndep

/-! ## Claim C9 -/

/-- Claim **C9**. The notification result can never change the response: for every
oracle and request, the writes and the object-layer calls are the same as with
a successful notification. And on the success path where the copy succeeded,
the `CopyObjectResult` body was written and the notification errors, the
response is still exactly the success response while the failure shows up in
the log. -/
theorem c9_notification_error_not_propagated :
    (∀ (env : CopyEnv) (r : CopyRequest),
      (copyObjectHandler env r).writes
          = (copyObjectHandler { env with sendNotifications := .ok () } r).writes
        ∧ (copyObjectHandler env r).calls
          = (copyObjectHandler { env with sendNotifications := .ok () } r).calls)
    ∧ (∀ (env : CopyEnv) (r : CopyRequest) (u : ParsedURL) (sb so : Str)
        (b1 b2 : BktInfo) (oi : ObjectInfo) (args : CopyObjectArgs)
        (ts : Option StrMap) (ep : EncryptionParams) (cn : Nat)
        (st : BucketSettings) (oc : ObjectInfo) (msg : Str),
      env.urlParse (headerGet r.headers amzCopySourceK) = some u →
      path2BucketObject u.path = .ok (sb, so) →
      env.getBucketSrc = .ok b1 → env.getBucketDst = .ok b2 →
      containsACLHeaders r = false →
      env.getObjectInfo = .ok oi →
      parseCopyObjectArgsM env.parseHTTPTime r.headers = .ok args →
      env.parseTaggingHeader = .ok ts → env.getObjectTagging = .ok ts →
      env.formEncryptionParams = .ok ep → env.matchObjectEnc = true →
      checkPreconditions oi args.conditional = true →
      env.getCopiesNumber = .ok cn → env.getBucketSettings = .ok st →
      env.formObjectLock = .ok () → env.copyObject = .ok oc →
      env.encodeOk = true → env.putObjectTagging = .ok () →
      env.sendNotifications = .error msg →
      (copyObjectHandler env r).writes
          = [.writeCopyResult oc.hashSum oc.created]
            ++ (if ep.enabled then [.setSSEHeaders] else [])
        ∧ strLit "couldn't send notification" ∈ (copyObjectHandler env r).logs) := by
  constructor
  · intro env r
    obtain ⟨f1, f2, f3, f4, f5, f6, f7, f8, f9, f10, f11, f12, f13, f14, f15, f16, f17,
      f18, f19⟩ := env
    exact copyObjectHandler_nf f1 f2 f3 f4 f5 f6 f7 f8 f9 f10 f11 f12 f13 f14 f15 f16
      f17 f18 f19 (.ok ()) r
  · intro env r u sb so b1 b2 oi args ts ep cn st oc msg hurl hpath hb1 hb2 hacl hoi
      hargs htagH htagG hencp hmatch hpre hcn hset hlock hcopy henc hput hnotif
    simp only [copyObjectHandler, copyFromSource, copyWithArgs, copyCheckAndCopy,
      copyApplyACL, copyApplyTagging, copyNotifyAndFinish,
      hurl, hpath, hb1, hb2, hacl, hoi, hargs, htagH, htagG, hencp, hmatch, hpre,
      hcn, hset, hlock, hcopy, henc, hput, hnotif, ite_self]
    cases htd : args.taggingDirective == replaceDirectiveK <;> cases ts <;>
      simp [htd, strLit]

/-- The conditional-argument record of the plain request (no headers set). -/
def happyConditional : ConditionalArgs :=
  { ifMatch := [], ifNoneMatch := [], ifModifiedSince := none, ifUnmodifiedSince := none }

/-- The argument record `parseCopyObjectArgs` produces for the plain request. -/
def happyArgs : CopyObjectArgs :=
  { conditional := happyConditional, metadataDirective := [], taggingDirective := [] }

/-- The oracle that fails only at notification publishing. -/
def c9Env : CopyEnv := { happyEnv with sendNotifications := .error (strLit "boom") }

/-- Witness for C9: the failing notification leaves the success response
intact and is logged. -/
theorem c9_notification_error_not_propagated_witness :
    (copyObjectHandler c9Env happyReq).writes
        = [.writeCopyResult dstObjInfo.hashSum dstObjInfo.created]
          ++ (if ({ enabled := false } : EncryptionParams).enabled then [.setSSEHeaders]
              else [])
      ∧ strLit "couldn't send notification" ∈ (copyObjectHandler c9Env happyReq).logs :=
  c9_notification_error_not_propagated.2 c9Env happyReq
    { path := strLit "/src/key", query := [] } (strLit "src") (strLit "key")
    { name := strLit "src" } { name := strLit "dst" } srcObjInfo happyArgs none
    { enabled := false } 1 {} dstObjInfo (strLit "boom")
    rfl rfl rfl rfl rfl rfl rfl rfl rfl rfl rfl rfl rfl rfl rfl rfl rfl rfl rfl

/-! ## Claim C10 -/

/-- The notify stage only appends to the call prefix it is given. -/
theorem copyNotifyAndFinish_calls_ext (env : CopyEnv) (oc : ObjectInfo)
    (ep : EncryptionParams) (pw : List WriteAction) (acc : List LayerCall) :
    ∃ l, (copyNotifyAndFinish env oc ep pw acc).calls = acc ++ l :=
  ⟨[.notifyObjectCreatedCopy], rfl⟩

/-- The tagging stage only appends to the call prefix it is given. -/
theorem copyApplyTagging_calls_ext (env : CopyEnv) (r : CopyRequest)
    (tagSet : Option StrMap) (oc : ObjectInfo) (ep : EncryptionParams)
    (pw : List WriteAction) (acc : List LayerCall) :
    ∃ l, (copyApplyTagging env r tagSet oc ep pw acc).calls = acc ++ l := by
  unfold copyApplyTagging
  cases tagSet with
  | none => exact copyNotifyAndFinish_calls_ext env oc ep pw acc
  | some ts =>
      cases hput : env.putObjectTagging with
      | error e => exact ⟨_, rfl⟩
      | ok u =>
          obtain ⟨l, hl⟩ := copyNotifyAndFinish_calls_ext env oc ep pw
            (acc ++ [.putObjectTaggingC r.dstObjectName])
          refine ⟨[LayerCall.putObjectTaggingC r.dstObjectName] ++ l, ?_⟩
          simp [hl]

/-- The ACL stage only appends to the call prefix it is given. -/
theorem copyApplyACL_calls_ext (env : CopyEnv) (r : CopyRequest) (cACL : Bool)
    (tagSet : Option StrMap) (oc : ObjectInfo) (ep : EncryptionParams)
    (pw : List WriteAction) (acc : List LayerCall) :
    ∃ l, (copyApplyACL env r cACL tagSet oc ep pw acc).calls = acc ++ l := by
  unfold copyApplyACL
  cases cACL with
  | false => exact copyApplyTagging_calls_ext env r tagSet oc ep pw acc
  | true =>
      cases hge : env.getNewEaclTable with
      | error e => exact ⟨[], by simp⟩
      | ok u =>
          cases hpa : env.putBucketACL with
          | error e => exact ⟨_, rfl⟩
          | ok v =>
              obtain ⟨l, hl⟩ := copyApplyTagging_calls_ext env r tagSet oc ep pw
                (acc ++ [.putBucketACLC])
              refine ⟨[LayerCall.putBucketACLC] ++ l, ?_⟩
              simp [hl]

/-- The check-and-copy stage only appends to the call prefix it is given. -/
theorem copyCheckAndCopy_calls_ext (env : CopyEnv) (r : CopyRequest) (cACL : Bool)
    (tagSet : Option StrMap) (oi : ObjectInfo) (args : CopyObjectArgs)
    (metadata : Option StrMap) (acc : List LayerCall) :
    ∃ l, (copyCheckAndCopy env r cACL tagSet oi args metadata acc).calls = acc ++ l := by
  unfold copyCheckAndCopy
  cases hfe : env.formEncryptionParams with
  | error e => exact ⟨[], by simp⟩
  | ok ep =>
      cases hm : env.matchObjectEnc with
      | false => exact ⟨[], by simp⟩
      | true =>
          cases hcp : checkPreconditions oi args.conditional with
          | false => exact ⟨[], by simp⟩
          | true =>
              cases hcn : env.getCopiesNumber with
              | error e => exact ⟨[], by simp⟩
              | ok n =>
                  cases hbs : env.getBucketSettings with
                  | error e => exact ⟨_, rfl⟩
                  | ok st =>
                      cases hol : env.formObjectLock with
                      | error e => exact ⟨_, rfl⟩
                      | ok v =>
                          cases hco : env.copyObject with
                          | error e => exact ⟨_, rfl⟩
                          | ok oc =>
                              cases hen : env.encodeOk with
                              | false => exact ⟨_, rfl⟩
                              | true =>
                                  obtain ⟨l, hl⟩ := copyApplyACL_calls_ext env r cACL
                                    tagSet oc ep
                                    [.writeCopyResult oc.hashSum oc.created]
                                    (acc ++ [.getBucketSettingsC,
                                      .copyObjectC r.dstObjectName
                                        (resolveCopyMetadata metadata r.headers oi)])
                                  refine ⟨[LayerCall.getBucketSettingsC,
                                    LayerCall.copyObjectC r.dstObjectName
                                      (resolveCopyMetadata metadata r.headers oi)] ++ l, ?_⟩
                                  simp [hl]

/-- The args stage only appends to the call prefix it is given. -/
theorem copyWithArgs_calls_ext (env : CopyEnv) (r : CopyRequest) (cACL : Bool)
    (srcObject : Str) (oi : ObjectInfo) (args : CopyObjectArgs) (acc : List LayerCall) :
    ∃ l, (copyWithArgs env r cACL srcObject oi args acc).calls = acc ++ l := by
  unfold copyWithArgs
  cases htd : args.taggingDirective == replaceDirectiveK with
  | true =>
      cases hph : env.parseTaggingHeader with
      | error e => exact ⟨[], by simp⟩
      | ok ts => exact copyCheckAndCopy_calls_ext env r cACL ts oi args _ acc
  | false =>
      cases hgt : env.getObjectTagging with
      | error e => exact ⟨_, rfl⟩
      | ok ts =>
          obtain ⟨l, hl⟩ := copyCheckAndCopy_calls_ext env r cACL ts oi args
            (if args.metadataDirective == replaceDirectiveK
              then some (parseMetadata r.headers) else none)
            (acc ++ [.getObjectTaggingC srcObject])
          exact ⟨[LayerCall.getObjectTaggingC srcObject] ++ l,
            hl.trans (List.append_assoc acc [LayerCall.getObjectTaggingC srcObject] l)⟩

/-- Claim **C10**. When URL-parsing of the copy-source header fails, the failure is
silently discarded: the pipeline proceeds with an empty version id on the raw
header string; the request is answered with the `InvalidRequest` error exactly
when the bucket/object regex rejects that raw string, and otherwise proceeds
into bucket resolution; and every regex rejection is `InvalidRequest`. -/
theorem c10_urlparse_failure_silent :
    (∀ (env : CopyEnv) (r : CopyRequest),
      env.urlParse (headerGet r.headers amzCopySourceK) = none →
      copyObjectHandler env r
        = copyFromSource env r [] (headerGet r.headers amzCopySourceK))
    ∧ (∀ (env : CopyEnv) (r : CopyRequest) (e : ApiErrCode),
      env.urlParse (headerGet r.headers amzCopySourceK) = none →
      path2BucketObject (headerGet r.headers amzCopySourceK) = .error e →
      copyObjectHandler env r
        = { writes := [.writeError e], calls := [],
            logs := [strLit "invalid source copy"] })
    ∧ (∀ (env : CopyEnv) (r : CopyRequest) (sb so : Str),
      env.urlParse (headerGet r.headers amzCopySourceK) = none →
      path2BucketObject (headerGet r.headers amzCopySourceK) = .ok (sb, so) →
      (copyObjectHandler env r).calls.head? = some (.resolveSrcBucket sb))
    ∧ (∀ (s : Str) (e : ApiErrCode),
      path2BucketObject s = .error e → e = .invalidRequest) := by
  refine ⟨?_, ?_, ?_, ?_⟩
  · intro env r hurl
    simp only [copyObjectHandler, hurl]
  · intro env r e hurl hp
    simp only [copyObjectHandler, copyFromSource, hurl, hp]
  · intro env r sb so hurl hp
    simp only [copyObjectHandler, copyFromSource, hurl, hp]
    cases hb1 : env.getBucketSrc with
    | error e => rfl
    | ok b1 =>
        cases hb2 : env.getBucketDst with
        | error e => rfl
        | ok b2 =>
            cases htok : (if containsACLHeaders r then env.getSessionTokenSetEACL
                else Except.ok ()) with
            | error e => rfl
            | ok u =>
                cases hoi : env.getObjectInfo with
                | error e => rfl
                | ok oi =>
                    cases ha : parseCopyObjectArgsM env.parseHTTPTime r.headers with
                    | error e => rfl
                    | ok args =>
                        obtain ⟨l, hl⟩ := copyWithArgs_calls_ext env r
                          (containsACLHeaders r) so oi args
                          [.resolveSrcBucket sb, .resolveDstBucket r.dstBucketName,
                            .getObjectInfoC so []]
                        rw [hl]
                        rfl
  · intro s e h
    unfold path2BucketObject at h
    dsimp only at h
    repeat' split at h
    all_goals
      first
        | exact Except.noConfusion h
        | (injection h with h2; exact h2.symm)

/-- An oracle whose URL parser always fails. -/
def c10Env : CopyEnv := { happyEnv with urlParse := fun _ => none }

/-- A request whose copy-source header does not match the bucket/object regex. -/
def c10BadReq : CopyRequest :=
  { headers := [(amzCopySourceK, strLit "nonsense")],
    dstBucketName := strLit "dst", dstObjectName := strLit "obj" }

/-- Witness for C10 at a failing URL parse: a mismatching raw header draws
`InvalidRequest`, a matching one proceeds into bucket resolution. -/
theorem c10_urlparse_failure_silent_witness :
    copyObjectHandler c10Env c10BadReq
        = { writes := [.writeError .invalidRequest], calls := [],
            logs := [strLit "invalid source copy"] }
      ∧ (copyObjectHandler c10Env happyReq).calls.head?
        = some (.resolveSrcBucket (strLit "src")) :=
  ⟨c10_urlparse_failure_silent.2.1 c10Env c10BadReq .invalidRequest rfl rfl,
    c10_urlparse_failure_silent.2.2.1 c10Env happyReq (strLit "src") (strLit "key")
      rfl rfl⟩

end S3GW
